import Mathlib

/-!
Verification of the Elite Dangerous mining calculator (`mining_calc.py`).

Modelling conventions:
* Python floats are idealized as exact rationals (`ℚ`); Python ints that
  participate in float arithmetic are embedded in `ℚ` as well.
* `math.sqrt` is irrational-valued, so the development is parametric in a
  function `sqrt : ℚ → ℚ`; every concrete scenario below applies it only to
  radicand `0`, where the exact square root is `0`.
* A Python dict record (hotspot / buyer rows) is a structure of `Option`
  fields; `d["k"]` on a missing key is a `KeyError`, modelled with `Except`;
  `d.get("k", v)` is `Option.getD`.
* Division on `ℚ` is total (`x / 0 = 0`); every division performed by the
  claims below is either guarded by the code itself (the `crph_full` guard)
  or covered by positivity hypotheses.
-/

/-- A 3-D coordinate record (`{"x": …, "y": …, "z": …}`). -/
structure Coords where
  x : ℚ
  y : ℚ
  z : ℚ
deriving DecidableEq

/-- `ShipProfile` dataclass (lines 31–39). -/
structure ShipProfile where
  name : String
  cargo_tons : ℚ
  jump_range_ly : ℚ
  jump_time_min : ℚ
  collector_controllers : ℚ
  num_lasers : ℚ
  ship_value : ℚ
deriving DecidableEq

/-- `GameConfig` dataclass (lines 41–61). -/
structure GameConfig where
  limpet_cost : ℚ
  limpets_per_ton : ℚ
  laser_mining_rate_per_laser : ℚ
  limpet_collection_rate : ℚ
  prospector_bonus : ℚ
  mining_downtime_factor : ℚ
  limpet_loss_rate : ℚ
  time_multiplier_mapped : ℚ
  time_multiplier_unmapped : ℚ
  time_multiplier_beginner : ℚ
deriving DecidableEq

/-- The default field values of `GameConfig` (the `GameConfig()` call at line 343). -/
def default_config : GameConfig :=
  { limpet_cost := 101.0
    limpets_per_ton := 1.0
    laser_mining_rate_per_laser := 2.5
    limpet_collection_rate := 2.8
    prospector_bonus := 3.5
    mining_downtime_factor := 0.85
    limpet_loss_rate := 0.10
    time_multiplier_mapped := 2.0
    time_multiplier_unmapped := 3.5
    time_multiplier_beginner := 5.0 }

/-- The global `SHIP` constant (lines 64–72). -/
def SHIP : ShipProfile :=
  { name := "MU-18A Asp Miner"
    cargo_tons := 96
    jump_range_ly := 26.87
    jump_time_min := 1.5
    collector_controllers := 2
    num_lasers := 2
    ship_value := 21598088 }

/-- `distance` (lines 119–121): Euclidean distance, with `math.sqrt`
abstracted as the parameter `sqrt`. -/
def distance (sqrt : ℚ → ℚ) (a b : Coords) : ℚ :=
  sqrt ((a.x - b.x) ^ 2 + (a.y - b.y) ^ 2 + (a.z - b.z) ^ 2)

/-- `travel_time_minutes` (lines 190–197); `math.ceil` is `Int.ceil`. -/
def travel_time_minutes (total_ly : ℚ) (ship : ShipProfile) : ℚ :=
  let num_jumps : ℤ := if total_ly > 0 then ⌈total_ly / ship.jump_range_ly⌉ else 0
  let jump_time := (num_jumps : ℚ) * ship.jump_time_min
  let docking_overhead : ℚ := 5.0
  jump_time + docking_overhead

/-- Python `round` to an integer: nearest, ties to even (banker's rounding). -/
def pyRoundInt (q : ℚ) : ℤ :=
  let f := ⌊q⌋
  let r := q - f
  if r < 1/2 then f else if 1/2 < r then f + 1 else if f % 2 = 0 then f else f + 1

/-- Python `round(x)` as a rational. -/
def pyRound0 (q : ℚ) : ℚ := (pyRoundInt q : ℚ)

/-- Python `round(x, n)`. -/
def pyRoundTo (n : ℕ) (q : ℚ) : ℚ := (pyRoundInt (q * 10 ^ n) : ℚ) / 10 ^ n

/-- Python `round(x, 1)`. -/
def pyRound1 (q : ℚ) : ℚ := pyRoundTo 1 q

/-- Python `round(x, 2)`. -/
def pyRound2 (q : ℚ) : ℚ := pyRoundTo 2 q

/-- Line 225–226: `mining_rate = laser_mining_rate_per_laser * num_lasers * mining_downtime_factor`. -/
def mining_rate (cfg : GameConfig) (ship : ShipProfile) : ℚ :=
  cfg.laser_mining_rate_per_laser * ship.num_lasers * cfg.mining_downtime_factor

/-- Line 227: `collection_rate = limpet_collection_rate * collector_controllers`. -/
def collection_rate (cfg : GameConfig) (ship : ShipProfile) : ℚ :=
  cfg.limpet_collection_rate * ship.collector_controllers

/-- Line 228: `effective_rate = min(mining_rate, collection_rate)`. -/
def effective_rate (cfg : GameConfig) (ship : ShipProfile) : ℚ :=
  min (mining_rate cfg ship) (collection_rate cfg ship)

/-- Line 229: `effective_rate_with_prospector = effective_rate * prospector_bonus`. -/
def effective_rate_with_prospector (cfg : GameConfig) (ship : ShipProfile) : ℚ :=
  effective_rate cfg ship * cfg.prospector_bonus

/-- Line 232: `extraction_time_full = cargo_tons / effective_rate_with_prospector`. -/
def extraction_time_full (cfg : GameConfig) (ship : ShipProfile) : ℚ :=
  ship.cargo_tons / effective_rate_with_prospector cfg ship

/-- Lines 235–240: the `mining_mode` → time multiplier selection. -/
def select_multiplier (cfg : GameConfig) (mining_mode : String) : ℚ :=
  if mining_mode = "mapped" then cfg.time_multiplier_mapped
  else if mining_mode = "beginner" then cfg.time_multiplier_beginner
  else cfg.time_multiplier_unmapped

/-- Line 242: `realistic_mining_time = extraction_time_full * multiplier`. -/
def realistic_mining_time (cfg : GameConfig) (ship : ShipProfile) (mining_mode : String) : ℚ :=
  extraction_time_full cfg ship * select_multiplier cfg mining_mode

/-- Line 246: `limpets_needed_full = tons_full * limpets_per_ton * (1 + limpet_loss_rate)`. -/
def limpets_needed_full (cfg : GameConfig) (ship : ShipProfile) : ℚ :=
  ship.cargo_tons * cfg.limpets_per_ton * (1 + cfg.limpet_loss_rate)

/-- Line 247: `limpet_cost_full = limpets_needed_full * limpet_cost`. -/
def limpet_cost_full (cfg : GameConfig) (ship : ShipProfile) : ℚ :=
  limpets_needed_full cfg ship * cfg.limpet_cost

/-- Line 251: `bulk_tax_full = 1.0 if demand == 0 else min(1.0, (demand * 0.25) / tons_full)`. -/
def bulk_tax_full (demand tons_full : ℚ) : ℚ :=
  if demand = 0 then 1.0 else min 1.0 ((demand * 0.25) / tons_full)

/-- Line 254: `revenue_full = tons_full * price * bulk_tax_full`. -/
def revenue_full (cfg : GameConfig) (ship : ShipProfile) (price demand : ℚ) : ℚ :=
  ship.cargo_tons * price * bulk_tax_full demand ship.cargo_tons

/-- Line 255: `profit_full = revenue_full - limpet_cost_full`. -/
def profit_full (cfg : GameConfig) (ship : ShipProfile) (price demand : ℚ) : ℚ :=
  revenue_full cfg ship price demand - limpet_cost_full cfg ship

/-- Line 258: `cycle_time_full = (realistic_mining_time + travel_min) / 60`. -/
def cycle_time_full (cfg : GameConfig) (ship : ShipProfile) (mining_mode : String)
    (travel_min : ℚ) : ℚ :=
  (realistic_mining_time cfg ship mining_mode + travel_min) / 60

/-- Line 259: `crph_full = profit_full / cycle_time_full if cycle_time_full > 0 else 0`. -/
def crph_full_calc (profit cycle : ℚ) : ℚ :=
  if cycle > 0 then profit / cycle else 0

/-- Line 263: the freshness classification. -/
def freshness_of (data_age_min : ℚ) : String :=
  if data_age_min < 60 then "FRESH" else if data_age_min < 360 then "STALE" else "OLD"

/-- A hotspot row: Python dict with possibly-missing keys. -/
structure MineRec where
  name : Option String
  coords : Option Coords
deriving DecidableEq

/-- A buyer row: Python dict with possibly-missing keys.  `age_minutes` is
written into the dict by `auto_calc_mode` (line 371). -/
structure BuyerRec where
  system : Option String
  station : Option String
  coords : Option Coords
  price : Option ℚ
  demand : Option ℚ
  age_minutes : Option ℚ
  pad : Option String
  ago_sec : Option ℚ
deriving DecidableEq

/-- Python exceptions that the modelled fragment can raise. -/
inductive PyErr where
  | KeyError (key : String)
  | ValueError (msg : String)
  | NetError (msg : String)
  | RuntimeErr (msg : String)
deriving DecidableEq

/-- The dict returned by `evaluate_route` (lines 265–287). -/
structure RouteResult where
  mine_system : String
  sell_system : String
  sell_station : String
  commodity : String
  price : ℚ
  demand : ℚ
  distance_ly : ℚ
  extraction_time : ℚ
  realistic_mining_time : ℚ
  profit_full : ℚ
  crph_full : ℚ
  bulk_tax_full : ℚ
  freshness : String
  extraction_rate_tpm : ℚ
  realistic_rate_tpm : ℚ
  pad : String
  dist_to_mine : ℚ
  dist_to_sell : ℚ
  travel_min : ℚ
  mining_mode : String
  time_multiplier : ℚ
deriving DecidableEq

/-- The successful body of `evaluate_route` (lines 218–287), with the required
dict values already extracted.  All numeric lets follow the source order. -/
def route_of (sqrt : ℚ → ℚ) (ref_coords mcoords bcoords : Coords)
    (mname bsystem bstation : String) (price : ℚ)
    (demandOpt ageOpt : Option ℚ) (padOpt : Option String)
    (cfg : GameConfig) (ship : ShipProfile) (mining_mode : String) : RouteResult :=
  let dist_to_mine := distance sqrt ref_coords mcoords
  let dist_to_sell := distance sqrt mcoords bcoords
  let total_ly := dist_to_mine + dist_to_sell
  let travel_min := travel_time_minutes total_ly ship
  let demand := demandOpt.getD 0
  let realistic := realistic_mining_time cfg ship mining_mode
  let profit := profit_full cfg ship price demand
  let cycle := cycle_time_full cfg ship mining_mode travel_min
  let crph := crph_full_calc profit cycle
  let data_age_min := ageOpt.getD 999
  { mine_system := mname
    sell_system := bsystem
    sell_station := bstation
    commodity := ""
    price := price
    demand := demand
    distance_ly := pyRound1 total_ly
    extraction_time := pyRound1 (extraction_time_full cfg ship)
    realistic_mining_time := pyRound1 realistic
    profit_full := pyRound0 profit
    crph_full := pyRound0 crph
    bulk_tax_full := pyRound2 (bulk_tax_full demand ship.cargo_tons)
    freshness := freshness_of data_age_min
    extraction_rate_tpm := pyRound2 (effective_rate_with_prospector cfg ship)
    realistic_rate_tpm := pyRound2 (ship.cargo_tons / realistic)
    pad := padOpt.getD "?"
    dist_to_mine := pyRound1 dist_to_mine
    dist_to_sell := pyRound1 dist_to_sell
    travel_min := pyRound1 travel_min
    mining_mode := mining_mode
    time_multiplier := select_multiplier cfg mining_mode }

/-- `evaluate_route` (lines 199–287).  `Except.ok none` is the empty dict of
line 216; `Except.error` is an uncaught `KeyError`.  The key extractions are
ordered by the first dict subscript that can fail in the source:
`buyer["price"]` (line 254), then `mine["name"]`, `buyer["system"]`,
`buyer["station"]` (lines 266–268). -/
def evaluate_route (sqrt : ℚ → ℚ) (ref_coords : Coords) (mine : MineRec) (buyer : BuyerRec)
    (cfg : GameConfig) (ship : ShipProfile) (mining_mode : String) :
    Except PyErr (Option RouteResult) :=
  match mine.coords, buyer.coords with
  | none, _ => .ok none
  | some _, none => .ok none
  | some mcoords, some bcoords =>
    match buyer.price with
    | none => .error (.KeyError "price")
    | some price =>
      match mine.name with
      | none => .error (.KeyError "name")
      | some mname =>
        match buyer.system with
        | none => .error (.KeyError "system")
        | some bsystem =>
          match buyer.station with
          | none => .error (.KeyError "station")
          | some bstation =>
            .ok (some (route_of sqrt ref_coords mcoords bcoords mname bsystem bstation
              price buyer.demand buyer.age_minutes buyer.pad cfg ship mining_mode))

/-- Line 357: `MAX_AGE_MINUTES = 12 * 60`. -/
def MAX_AGE_MINUTES : ℚ := 12 * 60

/-- Line 358: `MIN_PRICE = 100_000`. -/
def MIN_PRICE : ℚ := 100000

/-- Lines 293–301. -/
def LASER_MINING_COMMODITIES : List (String × ℤ) :=
  [("Platinum", 46), ("Osmium", 97), ("Painite", 83), ("LTD", 276),
   ("Rhodplumsite", 343), ("Serendibite", 344), ("Monazite", 345)]

/-- The buyer filter loop (lines 368–373): every buyer gets
`age_minutes = ago_sec / 60` written into its dict, and the filtered list
keeps those with `age_minutes ≤ MAX_AGE_MINUTES` and `price ≥ MIN_PRICE`. -/
def filter_buyers : List BuyerRec → List BuyerRec
  | [] => []
  | b :: t =>
    let age_min := (b.ago_sec.getD 999999) / 60
    let b' := { b with age_minutes := some age_min }
    if age_min ≤ MAX_AGE_MINUTES ∧ MIN_PRICE ≤ b.price.getD 0 then
      b' :: filter_buyers t
    else
      filter_buyers t

/-- The `for mine, buyer in itertools.product(...)` loop (lines 379–383).
A raised `KeyError` escapes the loop to the per-commodity `except` handler
(line 387), so the routes appended before it are kept and the remaining
pairs of this commodity are abandoned: the function returns the prefix
collected so far. -/
def evalPairs (sqrt : ℚ → ℚ) (ref_coords : Coords) (cfg : GameConfig) (ship : ShipProfile)
    (mining_mode : String) (commodity : String) :
    List (MineRec × BuyerRec) → List RouteResult
  | [] => []
  | (mine, buyer) :: t =>
    match evaluate_route sqrt ref_coords mine buyer cfg ship mining_mode with
    | .error _ => []
    | .ok none => evalPairs sqrt ref_coords cfg ship mining_mode commodity t
    | .ok (some r) =>
      { r with commodity := commodity } ::
        evalPairs sqrt ref_coords cfg ship mining_mode commodity t

/-- `itertools.product(hotspots, filtered_buyers)`: first factor outermost. -/
def pyProduct (hotspots : List MineRec) (buyers : List BuyerRec) :
    List (MineRec × BuyerRec) :=
  hotspots.flatMap fun m => buyers.map fun b => (m, b)

/-- One iteration of the commodity loop, i.e. the `try` block of lines
361–389: a fetch failure or an escaped `KeyError` is caught by the `except`
(line 387) and the commodity contributes only what was collected before the
failure; empty hotspot or filtered-buyer lists contribute nothing. -/
def process_commodity (sqrt : ℚ → ℚ) (ref_coords : Coords) (cfg : GameConfig)
    (ship : ShipProfile) (mining_mode : String)
    (fetchHot : String → Except PyErr (List MineRec))
    (fetchBuy : ℤ → Except PyErr (List BuyerRec))
    (commodity : String) (cid : ℤ) : List RouteResult :=
  match fetchHot commodity with
  | .error _ => []
  | .ok hotspots =>
    if hotspots = [] then []
    else
      match fetchBuy cid with
      | .error _ => []
      | .ok buyers =>
        let filtered := filter_buyers buyers
        if filtered = [] then []
        else evalPairs sqrt ref_coords cfg ship mining_mode commodity
          (pyProduct hotspots filtered)

/-- The commodity loop (lines 360–389): each commodity's routes are appended
to `all_routes`; a failure inside one commodity's `try` block never aborts
the remaining commodities (`continue` at line 389). -/
def auto_calc_routes (sqrt : ℚ → ℚ) (ref_coords : Coords) (cfg : GameConfig)
    (ship : ShipProfile) (mining_mode : String)
    (fetchHot : String → Except PyErr (List MineRec))
    (fetchBuy : ℤ → Except PyErr (List BuyerRec)) :
    List (String × ℤ) → List RouteResult
  | [] => []
  | (commodity, cid) :: t =>
    process_commodity sqrt ref_coords cfg ship mining_mode fetchHot fetchBuy commodity cid ++
      auto_calc_routes sqrt ref_coords cfg ship mining_mode fetchHot fetchBuy t

/-- Stable descending insertion by the stored `crph_full` field.  A stable
sort is unique, so this equals the output of Python's stable
`list.sort(key=..., reverse=True)` (line 395). -/
def insertDesc (x : RouteResult) : List RouteResult → List RouteResult
  | [] => [x]
  | y :: t => if y.crph_full ≤ x.crph_full then x :: y :: t else y :: insertDesc x t

/-- `all_routes.sort(key=lambda r: r["crph_full"], reverse=True)` (line 395). -/
def pySortDesc : List RouteResult → List RouteResult
  | [] => []
  | x :: t => insertDesc x (pySortDesc t)

/-- Lines 391–396: `None` models the early-returned "No valid routes found."
message; otherwise the sorted list is truncated to the top 5. -/
def auto_calc_result (sqrt : ℚ → ℚ) (ref_coords : Coords) (cfg : GameConfig)
    (ship : ShipProfile) (mining_mode : String)
    (fetchHot : String → Except PyErr (List MineRec))
    (fetchBuy : ℤ → Except PyErr (List BuyerRec))
    (commodities : List (String × ℤ)) : Option (List RouteResult) :=
  let all_routes := auto_calc_routes sqrt ref_coords cfg ship mining_mode
    fetchHot fetchBuy commodities
  if all_routes = [] then none
  else some ((pySortDesc all_routes).take 5)

/-- Outcome of `retry_with_backoff` (lines 98–113): a returned value, the
re-raised original exception of the final attempt (line 109), or the
unreachable-for-positive-bounds `RuntimeError` after the loop (line 113). -/
inductive RetryOutcome (E α : Type) where
  | ok (v : α)
  | origFail (e : E)
  | exhausted (msg : String)
deriving DecidableEq

/-- The retry loop of lines 104–112, from loop index `attempt` on.  The
impure operation is modelled as its per-attempt outcome sequence
`f : ℕ → Except E α`.  Besides the outcome, the model records how many
times the operation was invoked and the list of back-off delays slept
(`base_delay * 2 ** attempt`, line 110). -/
def retry_go (f : ℕ → Except E α) (max_retries : ℕ) (base_delay : ℚ) (attempt : ℕ) :
    RetryOutcome E α × ℕ × List ℚ :=
  if h : attempt < max_retries then
    match f attempt with
    | .ok v => (.ok v, 1, [])
    | .error e =>
      if attempt = max_retries - 1 then (.origFail e, 1, [])
      else
        let delay := base_delay * 2 ^ attempt
        let rest := retry_go f max_retries base_delay (attempt + 1)
        (rest.1, rest.2.1 + 1, delay :: rest.2.2)
  else (.exhausted "Failed after max_retries attempts", 0, [])
termination_by max_retries - attempt

/-- `retry_with_backoff` (lines 98–113). -/
def retry_with_backoff (f : ℕ → Except E α) (max_retries : ℕ) (base_delay : ℚ) :
    RetryOutcome E α × ℕ × List ℚ :=
  retry_go f max_retries base_delay 0

/-- Python dict lookup on the cache (`key in cache` / `cache[key]`). -/
def cacheLookup {α : Type} : List (List Char × α × ℚ) → List Char → Option (α × ℚ)
  | [], _ => none
  | (k, v) :: t, key => if k = key then some v else cacheLookup t key

/-- Python dict assignment `cache[key] = v`. -/
def cacheStore {α : Type} : List (List Char × α × ℚ) → List Char → α × ℚ →
    List (List Char × α × ℚ)
  | [], key, v => [(key, v)]
  | (k, w) :: t, key, v => if k = key then (key, v) :: t else (k, w) :: cacheStore t key v

/-- Result of one call to the wrapper produced by `cache_with_ttl`: the
returned value, the cache dict afterwards, and whether the underlying fetch
function was invoked (instrumentation of line 92). -/
structure CallResult (α : Type) where
  value : α
  state : List (List Char × α × ℚ)
  invoked : Bool
deriving DecidableEq

/-- The wrapper of `cache_with_ttl` (lines 80–96).  `keyFn` models
`str(args) + str(kwargs)` for the call's arguments, `now` models
`time.time()`. -/
def cache_with_ttl {σ α : Type} (ttl_seconds : ℚ) (keyFn : σ → List Char) (func : σ → α)
    (cache : List (List Char × α × ℚ)) (arg : σ) (now : ℚ) : CallResult α :=
  let key := keyFn arg
  match cacheLookup cache key with
  | some (result, timestamp) =>
    if now - timestamp < ttl_seconds then ⟨result, cache, false⟩
    else
      let result := func arg
      ⟨result, cacheStore cache key (result, now), true⟩
  | none =>
    let result := func arg
    ⟨result, cacheStore cache key (result, now), true⟩

/-- Escaping of one character inside a single-quoted Python `repr` string.
Python also escapes further non-printable characters as `\xHH`; the plain
characters appearing in this program's arguments are covered exactly, and
the extra escapes would only add more distinguishing structure. -/
def escapeSQ (c : Char) : List Char :=
  if c = '\\' then ['\\', '\\']
  else if c = '\'' then ['\\', '\'']
  else if c = '\n' then ['\\', 'n']
  else if c = '\r' then ['\\', 'r']
  else if c = '\t' then ['\\', 't']
  else [c]

/-- Escaping of one character inside a double-quoted Python `repr` string. -/
def escapeDQ (c : Char) : List Char :=
  if c = '\\' then ['\\', '\\']
  else if c = '"' then ['\\', '"']
  else if c = '\n' then ['\\', 'n']
  else if c = '\r' then ['\\', 'r']
  else if c = '\t' then ['\\', 't']
  else [c]

/-- Python `repr` of a `str`: double quotes exactly when the string contains
a single quote and no double quote, single quotes otherwise. -/
def pyReprStr (s : List Char) : List Char :=
  if '\'' ∈ s ∧ '"' ∉ s then '"' :: (s.flatMap escapeDQ ++ ['"'])
  else '\'' :: (s.flatMap escapeSQ ++ ['\''])

/-- Python `str` of a natural number. -/
def natReprPy (n : ℕ) : List Char :=
  if n = 0 then ['0'] else (Nat.digits 10 n).reverse.map Nat.digitChar

/-- Python `str` of an int. -/
def intReprPy (n : ℤ) : List Char :=
  if n < 0 then '-' :: natReprPy n.natAbs else natReprPy n.natAbs

/-- `str(args) + str(kwargs)` (line 86) for a call with one positional `str`
argument — the shape of every `get_coords` / `get_hotspots` call. -/
def pyKeyOfStr (s : List Char) : List Char :=
  ('(' :: (pyReprStr s ++ [',', ')'])) ++ ['\x7b', '\x7d']

/-- `str(args) + str(kwargs)` (line 86) for a call with one positional `int`
argument — the shape of every `get_buyers` call. -/
def pyKeyOfInt (n : ℤ) : List Char :=
  ('(' :: (intReprPy n ++ [',', ')'])) ++ ['\x7b', '\x7d']

/-- A raw HTTP response: `json_data` is the result of `r.json()`, `none`
modelling a raised parse exception, which `safe_json` (lines 123–128)
catches and converts to `None`. -/
structure PyResponse (α : Type) where
  json_data : Option α
deriving DecidableEq

/-- `safe_json` (lines 123–128). -/
def safe_json {α : Type} (r : PyResponse α) : Option α := r.json_data

/-- `get_buyers` (lines 156–169), with `requests.get` modelled as the
per-attempt outcome sequence `get` (an `Except.error` is a raised
network/timeout exception, an `Except.ok` a received response).  Returns
the Python result together with the number of times the raw request was
issued.  Note `fetch` itself never raises on a parse failure: `safe_json`
turns it into `None`, which `retry_with_backoff` treats as success. -/
def get_buyers_run (get : ℕ → Except String (PyResponse (List BuyerRec))) :
    Except PyErr (List BuyerRec) × ℕ :=
  let res := retry_with_backoff (fun i => (get i).map safe_json) 3 1.0
  match res.1 with
  | .ok (some l) =>
    if l = [] then (.error (.ValueError "Failed to get buyers"), res.2.1)
    else (.ok l, res.2.1)
  | .ok none => (.error (.ValueError "Failed to get buyers"), res.2.1)
  | .origFail e => (.error (.NetError e), res.2.1)
  | .exhausted m => (.error (.RuntimeErr m), res.2.1)

/-- Square-root stand-in for concrete scenarios.  Every concrete scenario in
this file places all coordinates at the same point, so the only radicand
ever passed is `0`, where the exact square root is `0`. -/
def sqrtZ : ℚ → ℚ := fun _ => 0

/-- The origin coordinate used by the concrete scenarios. -/
def c0 : Coords := ⟨0, 0, 0⟩

/-- A fully-populated hotspot row. -/
def mine0 : MineRec := { name := some "Borann", coords := some c0 }

/-- A fully-populated buyer row that passes the optimizer's filter. -/
def buyer0 : BuyerRec :=
  { system := some "Coalsack Sector"
    station := some "Deep Space Stop"
    coords := some c0
    price := some 250000
    demand := some 200
    age_minutes := none
    pad := some "L"
    ago_sec := some 0 }

/-- A buyer quoting price 0 (allowed: price is only required non-negative),
turning the route loss-making. -/
def c9_buyer : BuyerRec := { buyer0 with price := some 0, demand := some 0 }

/-- Price whose exact yield-per-hour in the standard scenario is
20 900 000.1 Cr/h. -/
def c3_price1 : ℚ := 32709929863 / 326400

/-- Price whose exact yield-per-hour in the standard scenario is
20 900 000.2 Cr/h.  Both yields round to the same whole 20 900 000. -/
def c3_price2 : ℚ := 49064895029 / 489600

/-- Buyer with the lower exact yield, listed first. -/
def c3_buyer1 : BuyerRec := { buyer0 with price := some c3_price1, demand := some 0 }

/-- Buyer with the higher exact yield, listed second. -/
def c3_buyer2 : BuyerRec := { buyer0 with price := some c3_price2, demand := some 0 }

/-- Hotspot fetch for the ranking scenario: one Platinum hotspot. -/
def c3_fetchHot : String → Except PyErr (List MineRec) :=
  fun commodity => if commodity = "Platinum" then .ok [mine0] else .ok []

/-- Buyer fetch for the ranking scenario: the two near-tied buyers. -/
def c3_fetchBuy : ℤ → Except PyErr (List BuyerRec) :=
  fun cid => if cid = 46 then .ok [c3_buyer1, c3_buyer2] else .ok []

/-- Hotspot fetch where Platinum has no hotspots but Osmium does. -/
def c2_fetchHot : String → Except PyErr (List MineRec) :=
  fun commodity => if commodity = "Osmium" then .ok [mine0] else .ok []

/-- Buyer fetch with one Osmium buyer. -/
def c2_fetchBuy : ℤ → Except PyErr (List BuyerRec) :=
  fun cid => if cid = 97 then .ok [buyer0] else .ok []

/-- An operation that fails on attempts 0 and 1 and succeeds on attempt 2. -/
def c5_f : ℕ → Except String ℕ := fun i => if i < 2 then .error "boom" else .ok 42

/-- A raw request that always succeeds at transport level but whose body
always fails to parse. -/
def parse_fail_get : ℕ → Except String (PyResponse (List BuyerRec)) := fun _ => .ok ⟨none⟩

/-- A raw request that always parses to an empty buyer list. -/
def c6_empty_get : ℕ → Except String (PyResponse (List BuyerRec)) := fun _ => .ok ⟨some []⟩

/-- Specified behaviour of the retry policy when the first decisive attempt
is attempt `k` (1-based): a success returns after `k` invocations, a failure
on the final attempt (`k = max_retries`) re-raises after `max_retries`
invocations; in both cases each failed attempt `i` sleeps
`base_delay * 2 ^ i` first. -/
def retryExpected {E α : Type} (last : Except E α) (k mr : ℕ) (bd : ℚ) :
    RetryOutcome E α × ℕ × List ℚ :=
  match last with
  | .ok v => (.ok v, k, (List.range (k - 1)).map fun i => bd * 2 ^ i)
  | .error e => (.origFail e, mr, (List.range (mr - 1)).map fun i => bd * 2 ^ i)

/-- Non-negativity of every derived numeric field of a `RouteResult` except
`profit_full` and `crph_full`. -/
def NonNegFields (r : RouteResult) : Prop :=
  0 ≤ r.price ∧ 0 ≤ r.demand ∧ 0 ≤ r.distance_ly ∧ 0 ≤ r.extraction_time ∧
  0 ≤ r.realistic_mining_time ∧ 0 ≤ r.bulk_tax_full ∧ 0 ≤ r.extraction_rate_tpm ∧
  0 ≤ r.realistic_rate_tpm ∧ 0 ≤ r.dist_to_mine ∧ 0 ≤ r.dist_to_sell ∧
  0 ≤ r.travel_min ∧ 0 ≤ r.time_multiplier

/-- Decoding of the character following a backslash in an escaped string. -/
def decodeEsc (d : Char) : Char :=
  if d = 'n' then '\n' else if d = 'r' then '\r' else if d = 't' then '\t' else d

/-- Left inverse of both `List.flatMap escapeSQ` and `List.flatMap escapeDQ`. -/
def unesc : List Char → List Char
  | [] => []
  | c :: t =>
    if c = '\\' then
      match t with
      | [] => [c]
      | d :: t2 => decodeEsc d :: unesc t2
    else c :: unesc t

/-! ## Helper lemmas -/

theorem pyRoundInt_nonneg {q : ℚ} (h : 0 ≤ q) : 0 ≤ pyRoundInt q := by
  have hf : (0 : ℤ) ≤ ⌊q⌋ := Int.floor_nonneg.mpr h
  simp only [pyRoundInt]
  split_ifs <;> omega

theorem pyRoundTo_nonneg {n : ℕ} {q : ℚ} (h : 0 ≤ q) : 0 ≤ pyRoundTo n q := by
  unfold pyRoundTo
  have h1 : (0 : ℚ) ≤ q * 10 ^ n := by positivity
  have h2 := pyRoundInt_nonneg h1
  have h3 : (0 : ℚ) ≤ (pyRoundInt (q * 10 ^ n) : ℚ) := Int.cast_nonneg.mpr h2
  positivity

theorem pyRound0_nonneg {q : ℚ} (h : 0 ≤ q) : 0 ≤ pyRound0 q :=
  Int.cast_nonneg.mpr (pyRoundInt_nonneg h)

theorem pyRound1_nonneg {q : ℚ} (h : 0 ≤ q) : 0 ≤ pyRound1 q := pyRoundTo_nonneg h

theorem pyRound2_nonneg {q : ℚ} (h : 0 ≤ q) : 0 ≤ pyRound2 q := pyRoundTo_nonneg h

theorem mem_insertDesc {a x : RouteResult} {l : List RouteResult} :
    a ∈ insertDesc x l ↔ a = x ∨ a ∈ l := by
  induction l with
  | nil => simp [insertDesc]
  | cons y t ih =>
    by_cases h : y.crph_full ≤ x.crph_full <;> simp [insertDesc, h, ih] <;> tauto

theorem pairwise_insertDesc {x : RouteResult} {l : List RouteResult}
    (h : l.Pairwise fun a b => b.crph_full ≤ a.crph_full) :
    (insertDesc x l).Pairwise fun a b => b.crph_full ≤ a.crph_full := by
  induction l with
  | nil => simp [insertDesc]
  | cons y t ih =>
    rcases List.pairwise_cons.mp h with ⟨hy, ht⟩
    by_cases hxy : y.crph_full ≤ x.crph_full
    · simp only [insertDesc, if_pos hxy]
      refine List.pairwise_cons.mpr ⟨?_, h⟩
      intro z hz
      rcases List.mem_cons.mp hz with rfl | hz
      · exact hxy
      · exact le_trans (hy z hz) hxy
    · simp only [insertDesc, if_neg hxy]
      refine List.pairwise_cons.mpr ⟨?_, ih ht⟩
      intro z hz
      rcases mem_insertDesc.mp hz with rfl | hz
      · exact le_of_not_le hxy
      · exact hy z hz

theorem pairwise_pySortDesc (l : List RouteResult) :
    (pySortDesc l).Pairwise fun a b => b.crph_full ≤ a.crph_full := by
  induction l with
  | nil => simp [pySortDesc]
  | cons x t ih => exact pairwise_insertDesc ih

/-! ## Claim theorems -/

/-- Claim C1: for every emitted route the evaluator's stored extraction rate
is the (rounded) boosted rate, where the boosted rate is the prospector
bonus applied to the bottleneck `min(mining_rate, collection_rate)`, with
`mining_rate = laser_rate × num_lasers × inefficiency` and
`collection_rate = collector_rate × collector_controllers`. -/
theorem c1_bottleneck_rule (sqrt : ℚ → ℚ) (ref : Coords) (mine : MineRec) (buyer : BuyerRec)
    (cfg : GameConfig) (ship : ShipProfile) (mode : String) :
    ((evaluate_route sqrt ref mine buyer cfg ship mode).toOption.join).elim True
      (fun r => r.extraction_rate_tpm = pyRound2 (effective_rate_with_prospector cfg ship))
    ∧ mining_rate cfg ship =
        cfg.laser_mining_rate_per_laser * ship.num_lasers * cfg.mining_downtime_factor
    ∧ collection_rate cfg ship = cfg.limpet_collection_rate * ship.collector_controllers
    ∧ effective_rate cfg ship = min (mining_rate cfg ship) (collection_rate cfg ship)
    ∧ effective_rate_with_prospector cfg ship =
        effective_rate cfg ship * cfg.prospector_bonus := by
  refine ⟨?_, rfl, rfl, rfl, rfl⟩
  rcases hmc : mine.coords with _ | mc <;> rcases hbc : buyer.coords with _ | bc <;>
    rcases hp : buyer.price with _ | p <;> rcases hnm : mine.name with _ | nm <;>
    rcases hsys : buyer.system with _ | sys <;> rcases hstn : buyer.station with _ | stn <;>
    simp [evaluate_route, hmc, hbc, hp, hnm, hsys, hstn, route_of, Except.toOption]

/-- Claim C4: the bulk-sale tax factor is 1 when demand is 0 or when a
quarter of the demand covers the cargo, and `(demand × 0.25)/cargo_tons`
otherwise; revenue and profit follow `revenue = cargo × price × tax` and
`profit = revenue − consumable cost`, and the emitted route stores their
roundings. -/
theorem c4_tax_and_profit (sqrt : ℚ → ℚ) (ref : Coords) (mine : MineRec) (buyer : BuyerRec)
    (cfg : GameConfig) (ship : ShipProfile) (mode : String) (price demand : ℚ)
    (htons : 0 < ship.cargo_tons) :
    bulk_tax_full demand ship.cargo_tons =
      (if demand = 0 then 1
       else if ship.cargo_tons ≤ demand * 0.25 then 1
       else demand * 0.25 / ship.cargo_tons)
    ∧ revenue_full cfg ship price demand =
        ship.cargo_tons * price * bulk_tax_full demand ship.cargo_tons
    ∧ profit_full cfg ship price demand =
        revenue_full cfg ship price demand - limpet_cost_full cfg ship
    ∧ ((evaluate_route sqrt ref mine buyer cfg ship mode).toOption.join).elim True
        (fun r =>
          r.bulk_tax_full = pyRound2 (bulk_tax_full (buyer.demand.getD 0) ship.cargo_tons)
          ∧ r.profit_full =
              pyRound0 (profit_full cfg ship (buyer.price.getD 0) (buyer.demand.getD 0))) := by
  refine ⟨?_, rfl, rfl, ?_⟩
  · unfold bulk_tax_full
    have h10 : (1.0 : ℚ) = 1 := by norm_num
    rw [h10]
    split_ifs with h0 h1
    · rfl
    · exact min_eq_left ((one_le_div htons).mpr h1)
    · exact min_eq_right (le_of_lt ((div_lt_one htons).mpr (lt_of_not_le h1)))
  · rcases hmc : mine.coords with _ | mc <;> rcases hbc : buyer.coords with _ | bc <;>
      rcases hp : buyer.price with _ | p <;> rcases hnm : mine.name with _ | nm <;>
      rcases hsys : buyer.system with _ | sys <;> rcases hstn : buyer.station with _ | stn <;>
      simp [evaluate_route, hmc, hbc, hp, hnm, hsys, hstn, route_of, Except.toOption]

/-- Witness for C4 at a concrete route. -/
theorem c4_tax_and_profit_witness :
    (0 : ℚ) < SHIP.cargo_tons
    ∧ (bulk_tax_full 200 SHIP.cargo_tons =
        (if (200 : ℚ) = 0 then 1
         else if SHIP.cargo_tons ≤ 200 * 0.25 then 1
         else 200 * 0.25 / SHIP.cargo_tons)
      ∧ revenue_full default_config SHIP 250000 200 =
          SHIP.cargo_tons * 250000 * bulk_tax_full 200 SHIP.cargo_tons
      ∧ profit_full default_config SHIP 250000 200 =
          revenue_full default_config SHIP 250000 200 - limpet_cost_full default_config SHIP
      ∧ ((evaluate_route sqrtZ c0 mine0 buyer0 default_config SHIP "unmapped").toOption.join).elim
          True
          (fun r =>
            r.bulk_tax_full =
              pyRound2 (bulk_tax_full (buyer0.demand.getD 0) SHIP.cargo_tons)
            ∧ r.profit_full =
                pyRound0 (profit_full default_config SHIP (buyer0.price.getD 0)
                  (buyer0.demand.getD 0)))) :=
  ⟨by norm_num [SHIP],
   c4_tax_and_profit sqrtZ c0 mine0 buyer0 default_config SHIP "unmapped" 250000 200
     (by norm_num [SHIP])⟩

/-- Claim C10: the incomplete-record filter looks only at `coords` — a buyer
with coordinates but no `price` (or `system`, or `station`) key makes
`evaluate_route` raise a `KeyError` instead of returning an empty result; in
the optimizer that error ends the current commodity's pair loop (earlier
collected routes are kept, later pairs are dropped) while the remaining
commodities are still processed. -/
theorem c10_keyerror_aborts_commodity (sqrt : ℚ → ℚ) (ref : Coords) (mine m2 : MineRec)
    (buyer b2 : BuyerRec) (cfg : GameConfig) (ship : ShipProfile) (mode : String)
    (mc bc : Coords) (p : ℚ) (nm sy st : String) (dOpt aOpt agOpt : Option ℚ)
    (padOpt : Option String) (rest : List (MineRec × BuyerRec)) (commodity : String)
    (fetchHot : String → Except PyErr (List MineRec))
    (fetchBuy : ℤ → Except PyErr (List BuyerRec))
    (n1 : String) (cid1 : ℤ) (cs : List (String × ℤ)) :
    evaluate_route sqrt ref { mine with coords := some mc }
        { buyer with coords := some bc, price := none } cfg ship mode
      = .error (.KeyError "price")
    ∧ evaluate_route sqrt ref { mine with coords := some mc, name := some nm }
        { buyer with coords := some bc, price := some p, system := none } cfg ship mode
      = .error (.KeyError "system")
    ∧ evaluate_route sqrt ref { mine with coords := some mc, name := some nm }
        { buyer with coords := some bc, price := some p, system := some sy, station := none }
        cfg ship mode
      = .error (.KeyError "station")
    ∧ evalPairs sqrt ref cfg ship mode commodity
        ((⟨some nm, some mc⟩, ⟨some sy, some st, some bc, some p, dOpt, aOpt, padOpt, agOpt⟩)
          :: ({ m2 with coords := some mc }, { b2 with coords := some bc, price := none })
          :: rest)
      = evalPairs sqrt ref cfg ship mode commodity
          [(⟨some nm, some mc⟩, ⟨some sy, some st, some bc, some p, dOpt, aOpt, padOpt, agOpt⟩)]
    ∧ auto_calc_routes sqrt ref cfg ship mode fetchHot fetchBuy ((n1, cid1) :: cs)
      = process_commodity sqrt ref cfg ship mode fetchHot fetchBuy n1 cid1 ++
          auto_calc_routes sqrt ref cfg ship mode fetchHot fetchBuy cs := by
  refine ⟨by simp [evaluate_route], by simp [evaluate_route], by simp [evaluate_route],
    ?_, rfl⟩
  simp [evalPairs, evaluate_route]

/-- Claim C2: the final ranked output has at most 5 entries sorted by stored
yield-per-hour descending; a commodity with an empty hotspot fetch
contributes nothing and the remaining commodities still run; an empty route
collection yields the distinct no-routes outcome (`none`) rather than an
empty ranked list. -/
theorem c2_optimizer_ranking (sqrt : ℚ → ℚ) (ref : Coords) (cfg : GameConfig)
    (ship : ShipProfile) (mode : String)
    (fetchHot : String → Except PyErr (List MineRec))
    (fetchBuy : ℤ → Except PyErr (List BuyerRec))
    (name0 : String) (cid0 : ℤ) (cs cs2 : List (String × ℤ))
    (hEmpty : fetchHot name0 = .ok []) :
    (auto_calc_result sqrt ref cfg ship mode fetchHot fetchBuy cs2).elim True
      (fun l => l.length ≤ 5 ∧ l.Pairwise fun a b => b.crph_full ≤ a.crph_full)
    ∧ auto_calc_routes sqrt ref cfg ship mode fetchHot fetchBuy ((name0, cid0) :: cs)
        = auto_calc_routes sqrt ref cfg ship mode fetchHot fetchBuy cs
    ∧ (auto_calc_result sqrt ref cfg ship mode fetchHot fetchBuy ((name0, cid0) :: cs) = none
        ↔ auto_calc_routes sqrt ref cfg ship mode fetchHot fetchBuy ((name0, cid0) :: cs)
            = []) := by
  refine ⟨?_, ?_, ?_⟩
  · unfold auto_calc_result
    by_cases hall : auto_calc_routes sqrt ref cfg ship mode fetchHot fetchBuy cs2 = []
    · simp [hall]
    · simp only [hall, if_false, Option.elim]
      exact ⟨List.length_take_le 5 _,
        (pairwise_pySortDesc _).sublist (List.take_sublist 5 _)⟩
  · simp [auto_calc_routes, process_commodity, hEmpty]
  · unfold auto_calc_result
    by_cases hall : auto_calc_routes sqrt ref cfg ship mode fetchHot fetchBuy
        ((name0, cid0) :: cs) = [] <;> simp [hall]

/-- Witness for C2: Platinum has no hotspots, Osmium produces one route. -/
theorem c2_optimizer_ranking_witness :
    c2_fetchHot "Platinum" = .ok []
    ∧ ((auto_calc_result sqrtZ c0 default_config SHIP "unmapped" c2_fetchHot c2_fetchBuy
          [("Osmium", 97)]).elim True
        (fun l => l.length ≤ 5 ∧ l.Pairwise fun a b => b.crph_full ≤ a.crph_full)
      ∧ auto_calc_routes sqrtZ c0 default_config SHIP "unmapped" c2_fetchHot c2_fetchBuy
          (("Platinum", 46) :: [("Osmium", 97)])
        = auto_calc_routes sqrtZ c0 default_config SHIP "unmapped" c2_fetchHot c2_fetchBuy
            [("Osmium", 97)]
      ∧ (auto_calc_result sqrtZ c0 default_config SHIP "unmapped" c2_fetchHot c2_fetchBuy
            (("Platinum", 46) :: [("Osmium", 97)]) = none
          ↔ auto_calc_routes sqrtZ c0 default_config SHIP "unmapped" c2_fetchHot c2_fetchBuy
              (("Platinum", 46) :: [("Osmium", 97)]) = [])) :=
  ⟨by simp [c2_fetchHot],
   c2_optimizer_ranking sqrtZ c0 default_config SHIP "unmapped" c2_fetchHot c2_fetchBuy
     "Platinum" 46 [("Osmium", 97)] [("Osmium", 97)] (by simp [c2_fetchHot])⟩

set_option maxHeartbeats 3200000 in
/-- Claim C3 counterexample: with one hotspot and two buyers whose exact
yields are 20 900 000.1 and 20 900 000.2 Cr/h (both stored rounded to
20 900 000), the pipeline ranks the lower-exact-yield buyer first — the
final ranking reads the rounded `crph_full` stored in the RouteResult, so
rounding does feed back into the ranking and the output is not descending
in the unrounded yield-per-hour. -/
theorem c3_counterexample :
    ((auto_calc_result sqrtZ c0 default_config SHIP "unmapped" c3_fetchHot c3_fetchBuy
        [("Platinum", 46)]).map (fun l => l.map fun r => r.price))
      = some [c3_price1, c3_price2]
    ∧ crph_full_calc (profit_full default_config SHIP c3_price1 0)
        (cycle_time_full default_config SHIP "unmapped"
          (travel_time_minutes (distance sqrtZ c0 c0 + distance sqrtZ c0 c0) SHIP))
      < crph_full_calc (profit_full default_config SHIP c3_price2 0)
        (cycle_time_full default_config SHIP "unmapped"
          (travel_time_minutes (distance sqrtZ c0 c0 + distance sqrtZ c0 c0) SHIP))
    ∧ pyRound0 (crph_full_calc (profit_full default_config SHIP c3_price1 0)
        (cycle_time_full default_config SHIP "unmapped"
          (travel_time_minutes (distance sqrtZ c0 c0 + distance sqrtZ c0 c0) SHIP)))
      = pyRound0 (crph_full_calc (profit_full default_config SHIP c3_price2 0)
        (cycle_time_full default_config SHIP "unmapped"
          (travel_time_minutes (distance sqrtZ c0 c0 + distance sqrtZ c0 c0) SHIP))) := by
  have h1 : ("unmapped" = "mapped") = False := by simp
  have h2 : ("unmapped" = "beginner") = False := by simp
  refine ⟨?_, ?_, ?_⟩
  · norm_num [auto_calc_result, auto_calc_routes, process_commodity, c3_fetchHot, c3_fetchBuy,
      filter_buyers, evalPairs, evaluate_route, route_of, pyProduct, mine0, buyer0,
      c3_buyer1, c3_buyer2, c3_price1, c3_price2, MAX_AGE_MINUTES, MIN_PRICE, default_config,
      SHIP, sqrtZ, c0, distance, travel_time_minutes, mining_rate, collection_rate,
      effective_rate, effective_rate_with_prospector, extraction_time_full, h1, h2,
      select_multiplier, realistic_mining_time, limpets_needed_full, limpet_cost_full,
      bulk_tax_full, revenue_full, profit_full, cycle_time_full, crph_full_calc, freshness_of,
      pyRound0, pyRound1, pyRound2, pyRoundTo, pyRoundInt, pySortDesc, insertDesc]
    exact ⟨_, ⟨⟨by simp, by simp⟩, rfl⟩, by simp⟩
  · norm_num [crph_full_calc, profit_full, revenue_full, bulk_tax_full, limpet_cost_full,
      limpets_needed_full, cycle_time_full, realistic_mining_time, extraction_time_full,
      effective_rate_with_prospector, effective_rate, mining_rate, collection_rate,
      h1, h2, select_multiplier, travel_time_minutes, distance, sqrtZ, c0, default_config,
      SHIP, c3_price1, c3_price2]
  · norm_num [crph_full_calc, profit_full, revenue_full, bulk_tax_full, limpet_cost_full,
      limpets_needed_full, cycle_time_full, realistic_mining_time, extraction_time_full,
      effective_rate_with_prospector, effective_rate, mining_rate, collection_rate,
      h1, h2, select_multiplier, travel_time_minutes, distance, sqrtZ, c0, default_config,
      SHIP, c3_price1, c3_price2, pyRound0, pyRoundInt]

/-- Claim C3 amended: rounding is applied to the fields stored in the
RouteResult; the stored yield is the rounding of the unrounded
profit/cycle quotient (so the arithmetic chain itself uses unrounded
values), but the final ranking sorts by that stored rounded `crph_full`
field — descending in the rounded, not the unrounded, yield. -/
theorem c3_amended_rounding (sqrt : ℚ → ℚ) (ref : Coords) (mine : MineRec) (buyer : BuyerRec)
    (cfg : GameConfig) (ship : ShipProfile) (mode : String) :
    ((evaluate_route sqrt ref mine buyer cfg ship mode).toOption.join).elim True
      (fun r => r.crph_full = pyRound0 (crph_full_calc
        (profit_full cfg ship (buyer.price.getD 0) (buyer.demand.getD 0))
        (cycle_time_full cfg ship mode (travel_time_minutes
          (distance sqrt ref (mine.coords.getD c0)
            + distance sqrt (mine.coords.getD c0) (buyer.coords.getD c0)) ship))))
    ∧ ∀ l : List RouteResult,
        ((pySortDesc l).take 5).Pairwise fun a b => b.crph_full ≤ a.crph_full := by
  constructor
  · rcases hmc : mine.coords with _ | mc <;> rcases hbc : buyer.coords with _ | bc <;>
      rcases hp : buyer.price with _ | p <;> rcases hnm : mine.name with _ | nm <;>
      rcases hsys : buyer.system with _ | sys <;> rcases hstn : buyer.station with _ | stn <;>
      simp [evaluate_route, hmc, hbc, hp, hnm, hsys, hstn, route_of, Except.toOption]
  · intro l
    exact (pairwise_pySortDesc l).sublist (List.take_sublist 5 (pySortDesc l))

/-- Claim C9 counterexample: a buyer quoting price 0 (a non-negative price)
yields an emitted RouteResult whose stored yield-per-hour `crph_full` is
negative — so `profit` is not the only derived numeric field that can be
negative. -/
theorem c9_counterexample :
    ((evaluate_route sqrtZ c0 mine0 c9_buyer default_config SHIP "unmapped").toOption.join.map
      (fun r => r.crph_full)) = some (-23196)
    ∧ ((-23196 : ℚ) < 0)
    ∧ ((evaluate_route sqrtZ c0 mine0 c9_buyer default_config SHIP "unmapped").toOption.join.map
      (fun r => r.profit_full)) = some (-10666) := by
  have h1 : ("unmapped" = "mapped") = False := by simp
  have h2 : ("unmapped" = "beginner") = False := by simp
  refine ⟨?_, by norm_num, ?_⟩ <;>
    norm_num [evaluate_route, route_of, mine0, buyer0, c9_buyer, default_config, SHIP,
      sqrtZ, c0, distance, travel_time_minutes, mining_rate, collection_rate,
      effective_rate, effective_rate_with_prospector, extraction_time_full, h1, h2,
      select_multiplier, realistic_mining_time, limpets_needed_full, limpet_cost_full,
      bulk_tax_full, revenue_full, profit_full, cycle_time_full, crph_full_calc,
      freshness_of, pyRound0, pyRound1, pyRound2, pyRoundTo, pyRoundInt, Except.toOption]

/-- Claim C9 amended: a RouteResult is emitted only when both records carry
a coordinate (a record lacking one yields the empty result instead); the
yield computation returns 0 when the cycle time is 0 (the guarded division
of line 259); and, for positive configuration and ship parameters and
non-negative price and demand, every derived numeric field of an emitted
result is non-negative except `profit_full` and `crph_full`, which may both
be negative on a loss-making route. -/
theorem c9_amended_invariants (sqrt : ℚ → ℚ) (ref mc bc : Coords) (mine : MineRec)
    (buyer : BuyerRec) (cfg : GameConfig) (ship : ShipProfile) (mode : String)
    (dOpt : Option ℚ) (p : ℚ)
    (hd1 : 0 ≤ distance sqrt ref mc) (hd2 : 0 ≤ distance sqrt mc bc)
    (hcargo : 0 < ship.cargo_tons) (hrange : 0 < ship.jump_range_ly)
    (hjt : 0 ≤ ship.jump_time_min)
    (hlaser : 0 < cfg.laser_mining_rate_per_laser) (hcoll : 0 < cfg.limpet_collection_rate)
    (hnl : 0 < ship.num_lasers) (hcc : 0 < ship.collector_controllers)
    (hbonus : 0 < cfg.prospector_bonus) (hdown : 0 < cfg.mining_downtime_factor)
    (hmult : 0 < select_multiplier cfg mode)
    (hp : 0 ≤ p) (hdem : 0 ≤ dOpt.getD 0) :
    evaluate_route sqrt ref { mine with coords := none } buyer cfg ship mode = .ok none
    ∧ evaluate_route sqrt ref mine { buyer with coords := none } cfg ship mode = .ok none
    ∧ crph_full_calc (profit_full cfg ship p (dOpt.getD 0)) 0 = 0
    ∧ ((evaluate_route sqrt ref { mine with coords := some mc }
          { buyer with coords := some bc, price := some p, demand := dOpt }
          cfg ship mode).toOption.join).elim True NonNegFields := by
  have hmin : 0 < effective_rate cfg ship :=
    lt_min (mul_pos (mul_pos hlaser hnl) hdown) (mul_pos hcoll hcc)
  have hboost : 0 < effective_rate_with_prospector cfg ship := mul_pos hmin hbonus
  have hext : 0 < extraction_time_full cfg ship := div_pos hcargo hboost
  have hreal : 0 < realistic_mining_time cfg ship mode := mul_pos hext hmult
  have htrav : 0 ≤ travel_time_minutes (distance sqrt ref mc + distance sqrt mc bc) ship := by
    have h0t : 0 ≤ distance sqrt ref mc + distance sqrt mc bc := add_nonneg hd1 hd2
    simp only [travel_time_minutes]
    split_ifs with hpos
    · have hc : (0 : ℤ) ≤ ⌈(distance sqrt ref mc + distance sqrt mc bc) /
          ship.jump_range_ly⌉ := Int.ceil_nonneg (div_nonneg h0t hrange.le)
      have hc2 : (0 : ℚ) ≤ (⌈(distance sqrt ref mc + distance sqrt mc bc) /
          ship.jump_range_ly⌉ : ℚ) := by exact_mod_cast hc
      have := mul_nonneg hc2 hjt
      norm_num
      linarith
    · norm_num
  have htax : 0 ≤ bulk_tax_full (dOpt.getD 0) ship.cargo_tons := by
    unfold bulk_tax_full
    split_ifs
    · norm_num
    · exact le_min (by norm_num)
        (div_nonneg (mul_nonneg hdem (by norm_num)) hcargo.le)
  refine ⟨by cases mine.coords <;> simp [evaluate_route],
    by rcases h : mine.coords with _ | mc2 <;> simp [evaluate_route, h],
    by simp [crph_full_calc],
    ?_⟩
  rcases hnm : mine.name with _ | nm <;> rcases hsys : buyer.system with _ | sys <;>
    rcases hstn : buyer.station with _ | stn <;>
    simp [evaluate_route, hnm, hsys, hstn, route_of, Except.toOption]
  exact ⟨hp, hdem, pyRound1_nonneg (add_nonneg hd1 hd2), pyRound1_nonneg hext.le,
    pyRound1_nonneg hreal.le, pyRound2_nonneg htax, pyRound2_nonneg hboost.le,
    pyRound2_nonneg (div_nonneg hcargo.le hreal.le), pyRound1_nonneg hd1,
    pyRound1_nonneg hd2, pyRound1_nonneg htrav, hmult.le⟩

/-- Witness for the amended C9 at a concrete route. -/
theorem c9_amended_invariants_witness :
    (0 ≤ distance sqrtZ c0 c0) ∧ (0 < SHIP.cargo_tons) ∧ (0 < SHIP.jump_range_ly)
    ∧ (0 ≤ SHIP.jump_time_min) ∧ (0 < default_config.laser_mining_rate_per_laser)
    ∧ (0 < default_config.limpet_collection_rate) ∧ (0 < SHIP.num_lasers)
    ∧ (0 < SHIP.collector_controllers) ∧ (0 < default_config.prospector_bonus)
    ∧ (0 < default_config.mining_downtime_factor)
    ∧ (0 < select_multiplier default_config "unmapped")
    ∧ (0 ≤ (250000 : ℚ)) ∧ (0 ≤ (Option.getD (some (200 : ℚ)) 0))
    ∧ (evaluate_route sqrtZ c0 { mine0 with coords := none } buyer0 default_config SHIP
          "unmapped" = .ok none
      ∧ evaluate_route sqrtZ c0 mine0 { buyer0 with coords := none } default_config SHIP
          "unmapped" = .ok none
      ∧ crph_full_calc (profit_full default_config SHIP 250000
          (Option.getD (some (200 : ℚ)) 0)) 0 = 0
      ∧ ((evaluate_route sqrtZ c0 { mine0 with coords := some c0 }
            { buyer0 with coords := some c0, price := some 250000, demand := some 200 }
            default_config SHIP "unmapped").toOption.join).elim True NonNegFields) := by
  have hd : 0 ≤ distance sqrtZ c0 c0 := by simp [distance, sqrtZ]
  have hmul : 0 < select_multiplier default_config "unmapped" := by
    have h1 : ("unmapped" = "mapped") = False := by simp
    have h2 : ("unmapped" = "beginner") = False := by simp
    norm_num [select_multiplier, default_config, h1, h2]
  refine ⟨hd, by norm_num [SHIP], by norm_num [SHIP], by norm_num [SHIP],
    by norm_num [default_config], by norm_num [default_config], by norm_num [SHIP],
    by norm_num [SHIP], by norm_num [default_config], by norm_num [default_config],
    hmul, by norm_num, by simp,
    c9_amended_invariants sqrtZ c0 c0 c0 mine0 buyer0 default_config SHIP "unmapped"
      (some 200) 250000 hd hd (by norm_num [SHIP]) (by norm_num [SHIP]) (by norm_num [SHIP])
      (by norm_num [default_config]) (by norm_num [default_config]) (by norm_num [SHIP])
      (by norm_num [SHIP]) (by norm_num [default_config]) (by norm_num [default_config])
      hmul (by norm_num) (by simp)⟩

/-- The retry loop when attempt `k - 1` (0-based) succeeds after earlier
failures. -/
theorem retry_go_ok {E α : Type} (f : ℕ → Except E α) (mr : ℕ) (bd : ℚ) (a k : ℕ) (v : α)
    (hak : a < k) (hkmr : k ≤ mr)
    (hfail : ∀ i, a ≤ i → i < k - 1 → (f i).isOk = false)
    (hlast : f (k - 1) = .ok v) :
    retry_go f mr bd a = (.ok v, k - a, (List.range' a (k - 1 - a)).map fun i => bd * 2 ^ i) := by
  obtain ⟨n, hn⟩ : ∃ n, k - 1 - a = n := ⟨_, rfl⟩
  induction n generalizing a with
  | zero =>
    have ha : a = k - 1 := by omega
    have hamr : a < mr := by omega
    have h1 : k - (k - 1) = 1 := by omega
    have h2 : k - 1 - (k - 1) = 0 := by omega
    rw [retry_go, dif_pos hamr, ha, hlast]
    simp [h1, h2]
  | succ n ih =>
    have halt : a < k - 1 := by omega
    have hamr : a < mr := by omega
    have hne : ¬(a = mr - 1) := by omega
    rw [retry_go]
    rcases hfa : f a with e | v'
    · have h1 : k - (a + 1) + 1 = k - a := by omega
      have h2 : k - 1 - a = (k - 1 - (a + 1)) + 1 := by omega
      simp only [dif_pos hamr, hfa, if_neg hne,
        ih (a + 1) (by omega) (fun i hi1 hi2 => hfail i (by omega) hi2) (by omega)]
      simp [h1, h2, List.range'_succ]
    · exfalso
      have := hfail a (le_refl a) halt
      rw [hfa] at this
      simp [Except.isOk, Except.toBool] at this

/-- The retry loop when every attempt fails: the original failure of the
final attempt is re-raised. -/
theorem retry_go_err {E α : Type} (f : ℕ → Except E α) (bd : ℚ) (a mr : ℕ) (e : E)
    (hak : a < mr)
    (hfail : ∀ i, a ≤ i → i < mr - 1 → (f i).isOk = false)
    (hlast : f (mr - 1) = .error e) :
    retry_go f mr bd a =
      (.origFail e, mr - a, (List.range' a (mr - 1 - a)).map fun i => bd * 2 ^ i) := by
  obtain ⟨n, hn⟩ : ∃ n, mr - 1 - a = n := ⟨_, rfl⟩
  induction n generalizing a with
  | zero =>
    have ha : a = mr - 1 := by omega
    have h1 : mr - (mr - 1) = 1 := by omega
    have h2 : mr - 1 - (mr - 1) = 0 := by omega
    rw [retry_go, dif_pos hak, ha, hlast]
    simp [h1, h2]
  | succ n ih =>
    have halt : a < mr - 1 := by omega
    have hne : ¬(a = mr - 1) := by omega
    rw [retry_go]
    rcases hfa : f a with e' | v'
    · have h1 : mr - (a + 1) + 1 = mr - a := by omega
      have h2 : mr - 1 - a = (mr - 1 - (a + 1)) + 1 := by omega
      simp only [dif_pos hak, hfa, if_neg hne,
        ih (a + 1) (by omega) (fun i hi1 hi2 => hfail i (by omega) hi2) (by omega)]
      simp [h1, h2, List.range'_succ]
    · exfalso
      have := hfail a (le_refl a) halt
      rw [hfa] at this
      simp [Except.isOk, Except.toBool] at this

/-- Claim C5: with `k` the 1-based index of the first decisive attempt
(`k = max_retries` for an always-failing operation, by the right disjunct),
the operation is invoked exactly `k` times, a success's value is returned,
an exhausted retry re-raises the original final-attempt failure, and each
failed attempt `i` first waits `base_delay * 2 ^ i`. -/
theorem c5_retry_policy {E α : Type} (f : ℕ → Except E α) (mr k : ℕ) (bd : ℚ)
    (hk1 : 1 ≤ k) (hkmr : k ≤ mr)
    (hfail : ((List.range (k - 1)).all fun i => !(f i).isOk) = true)
    (hlast : (f (k - 1)).isOk = true ∨ k = mr) :
    retry_with_backoff f mr bd = retryExpected (f (k - 1)) k mr bd := by
  have hfail' : ∀ i, 0 ≤ i → i < k - 1 → (f i).isOk = false := by
    intro i _ hi
    have := List.all_eq_true.mp hfail i (List.mem_range.mpr hi)
    simpa using this
  unfold retry_with_backoff retryExpected
  rcases hf : f (k - 1) with e | v
  · have hkm : k = mr := by
      rcases hlast with h | h
      · rw [hf] at h; simp [Except.isOk, Except.toBool] at h
      · exact h
    subst hkm
    rw [retry_go_err f bd 0 k e (by omega) (fun i h1 h2 => hfail' i h1 h2) hf]
    simp [List.range_eq_range']
  · rw [retry_go_ok f mr bd 0 k v (by omega) hkmr (fun i h1 h2 => hfail' i h1 h2) hf]
    simp [List.range_eq_range']

/-- Witness for C5: fails twice, succeeds on the third of three attempts. -/
theorem c5_retry_policy_witness :
    (1 ≤ 3) ∧ (3 ≤ 3)
    ∧ (((List.range (3 - 1)).all fun i => !(c5_f i).isOk) = true)
    ∧ ((c5_f (3 - 1)).isOk = true ∨ 3 = 3)
    ∧ retry_with_backoff c5_f 3 1 = retryExpected (c5_f (3 - 1)) 3 3 1 :=
  ⟨by norm_num, by norm_num, by decide, by decide,
   c5_retry_policy c5_f 3 3 1 (by norm_num) (by norm_num) (by decide) (by decide)⟩

/-- Claim C6 counterexample: a response that always fails to parse is NOT
retried — `safe_json` swallows the parse exception into `None`, the retry
wrapper sees a successful call and stops after exactly one invocation, and
`get_buyers` raises its `ValueError` instead of a propagated fetch
failure. -/
theorem c6_counterexample :
    (get_buyers_run parse_fail_get).2 = 1
    ∧ (get_buyers_run parse_fail_get).1 = .error (.ValueError "Failed to get buyers") := by
  constructor <;>
    simp [get_buyers_run, retry_with_backoff, retry_go, parse_fail_get, safe_json, Except.map]

/-- Claim C6 amended: whenever the first raw request returns a response
(whether it parses or not), the operation is invoked exactly once — parse
failures and successfully-parsed-but-empty payloads are both converted to
the same `ValueError` without any retry; only a raised transport exception
is retried (per the retry-policy theorem). -/
theorem c6_amended_parse_not_retried (get : ℕ → Except String (PyResponse (List BuyerRec)))
    (r : PyResponse (List BuyerRec)) (hg : get 0 = .ok r) :
    (get_buyers_run get).2 = 1
    ∧ (get_buyers_run get).1 =
        (match safe_json r with
         | none => .error (.ValueError "Failed to get buyers")
         | some l =>
            if l = [] then .error (.ValueError "Failed to get buyers") else .ok l) := by
  rcases hj : r.json_data with _ | l
  · constructor <;>
      simp [get_buyers_run, retry_with_backoff, retry_go, hg, safe_json, hj, Except.map]
  · by_cases hl : l = [] <;> constructor <;>
      simp [get_buyers_run, retry_with_backoff, retry_go, hg, safe_json, hj, hl, Except.map]

/-- Witness for the amended C6. -/
theorem c6_amended_parse_not_retried_witness :
    c6_empty_get 0 = .ok ⟨some []⟩
    ∧ ((get_buyers_run c6_empty_get).2 = 1
      ∧ (get_buyers_run c6_empty_get).1 =
          (match safe_json (⟨some []⟩ : PyResponse (List BuyerRec)) with
           | none => .error (.ValueError "Failed to get buyers")
           | some l =>
              if l = [] then .error (.ValueError "Failed to get buyers") else .ok l)) :=
  ⟨rfl, c6_amended_parse_not_retried c6_empty_get ⟨some []⟩ rfl⟩

/-- Looking up the key just stored finds the stored entry. -/
theorem cacheLookup_cacheStore_self {α : Type} (st : List (List Char × α × ℚ))
    (k : List Char) (v : α × ℚ) : cacheLookup (cacheStore st k v) k = some v := by
  induction st with
  | nil => simp [cacheStore, cacheLookup]
  | cons h t ih =>
    obtain ⟨k', w⟩ := h
    by_cases hk : k' = k <;> simp [cacheStore, cacheLookup, hk, ih]

/-- Claim C7: a first call on a cold key invokes the fetch and stores
(result, now); a second call with the same argument within the TTL
(measured from insertion) does not invoke the fetch and returns the cached
value with the cache unchanged; a call after the TTL has elapsed invokes
the fetch again and stores the fresh result with its insertion time. -/
theorem c7_cache_ttl {σ α : Type} (ttl : ℚ) (keyFn : σ → List Char) (func : σ → α)
    (cache : List (List Char × α × ℚ)) (arg : σ) (t1 t2 t3 : ℚ)
    (hmiss : cacheLookup cache (keyFn arg) = none)
    (hfresh : t2 - t1 < ttl) (hstale : ttl ≤ t3 - t1) :
    (cache_with_ttl ttl keyFn func cache arg t1).invoked = true
    ∧ (cache_with_ttl ttl keyFn func cache arg t1).value = func arg
    ∧ (cache_with_ttl ttl keyFn func (cache_with_ttl ttl keyFn func cache arg t1).state
        arg t2).invoked = false
    ∧ (cache_with_ttl ttl keyFn func (cache_with_ttl ttl keyFn func cache arg t1).state
        arg t2).value = func arg
    ∧ (cache_with_ttl ttl keyFn func (cache_with_ttl ttl keyFn func cache arg t1).state
        arg t2).state = (cache_with_ttl ttl keyFn func cache arg t1).state
    ∧ (cache_with_ttl ttl keyFn func (cache_with_ttl ttl keyFn func cache arg t1).state
        arg t3).invoked = true
    ∧ cacheLookup (cache_with_ttl ttl keyFn func
        (cache_with_ttl ttl keyFn func cache arg t1).state arg t3).state (keyFn arg)
      = some (func arg, t3) := by
  have h1 : cache_with_ttl ttl keyFn func cache arg t1 =
      ⟨func arg, cacheStore cache (keyFn arg) (func arg, t1), true⟩ := by
    simp [cache_with_ttl, hmiss]
  have hlook : cacheLookup (cacheStore cache (keyFn arg) (func arg, t1)) (keyFn arg)
      = some (func arg, t1) := cacheLookup_cacheStore_self ..
  have h2 : cache_with_ttl ttl keyFn func (cacheStore cache (keyFn arg) (func arg, t1)) arg t2
      = ⟨func arg, cacheStore cache (keyFn arg) (func arg, t1), false⟩ := by
    simp [cache_with_ttl, hlook, hfresh]
  have h3 : cache_with_ttl ttl keyFn func (cacheStore cache (keyFn arg) (func arg, t1)) arg t3
      = ⟨func arg, cacheStore (cacheStore cache (keyFn arg) (func arg, t1)) (keyFn arg)
          (func arg, t3), true⟩ := by
    have hns : ¬(t3 - t1 < ttl) := not_lt.mpr hstale
    simp [cache_with_ttl, hlook, hns]
  simp only [h1]
  simp [h2, h3, cacheLookup_cacheStore_self]

/-- Witness for C7: a concrete wrapped fetch around an empty cache. -/
theorem c7_cache_ttl_witness :
    cacheLookup ([] : List (List Char × ℕ × ℚ)) (pyKeyOfStr ['S', 'o', 'l']) = none
    ∧ ((100 : ℚ) - 0 < 300) ∧ ((300 : ℚ) ≤ 400 - 0)
    ∧ ((cache_with_ttl 300 pyKeyOfStr (fun _ => 7) [] ['S', 'o', 'l'] 0).invoked = true
    ∧ (cache_with_ttl 300 pyKeyOfStr (fun _ => 7) [] ['S', 'o', 'l'] 0).value =
        (fun _ => 7) ['S', 'o', 'l']
    ∧ (cache_with_ttl 300 pyKeyOfStr (fun _ => 7)
        (cache_with_ttl 300 pyKeyOfStr (fun _ => 7) [] ['S', 'o', 'l'] 0).state
        ['S', 'o', 'l'] 100).invoked = false
    ∧ (cache_with_ttl 300 pyKeyOfStr (fun _ => 7)
        (cache_with_ttl 300 pyKeyOfStr (fun _ => 7) [] ['S', 'o', 'l'] 0).state
        ['S', 'o', 'l'] 100).value = (fun _ => 7) ['S', 'o', 'l']
    ∧ (cache_with_ttl 300 pyKeyOfStr (fun _ => 7)
        (cache_with_ttl 300 pyKeyOfStr (fun _ => 7) [] ['S', 'o', 'l'] 0).state
        ['S', 'o', 'l'] 100).state =
        (cache_with_ttl 300 pyKeyOfStr (fun _ => 7) [] ['S', 'o', 'l'] 0).state
    ∧ (cache_with_ttl 300 pyKeyOfStr (fun _ => 7)
        (cache_with_ttl 300 pyKeyOfStr (fun _ => 7) [] ['S', 'o', 'l'] 0).state
        ['S', 'o', 'l'] 400).invoked = true
    ∧ cacheLookup (cache_with_ttl 300 pyKeyOfStr (fun _ => 7)
        (cache_with_ttl 300 pyKeyOfStr (fun _ => 7) [] ['S', 'o', 'l'] 0).state
        ['S', 'o', 'l'] 400).state (pyKeyOfStr ['S', 'o', 'l'])
      = some ((fun _ => 7) ['S', 'o', 'l'], 400)) :=
  ⟨rfl, by norm_num, by norm_num,
   c7_cache_ttl 300 pyKeyOfStr (fun _ => 7) [] ['S', 'o', 'l'] 0 100 400 rfl
     (by norm_num) (by norm_num)⟩


/-- `unesc` passes through a non-backslash head character. -/
theorem unesc_cons_ne {c : Char} (l : List Char) (h : ¬ c = '\\') :
    unesc (c :: l) = c :: unesc l := by
  rw [unesc.eq_def]
  exact if_neg h

/-- `unesc` decodes `escapeSQ`-escaped strings. -/
theorem unesc_escapeSQ (s : List Char) : unesc (s.flatMap escapeSQ) = s := by
  induction s with
  | nil => rfl
  | cons c t ih =>
    by_cases h1 : c = '\\'
    · subst h1
      show '\\' :: unesc (t.flatMap escapeSQ) = '\\' :: t
      rw [ih]
    · by_cases h2 : c = '\''
      · subst h2
        show '\'' :: unesc (t.flatMap escapeSQ) = '\'' :: t
        rw [ih]
      · by_cases h3 : c = '\n'
        · subst h3
          show '\n' :: unesc (t.flatMap escapeSQ) = '\n' :: t
          rw [ih]
        · by_cases h4 : c = '\r'
          · subst h4
            show '\r' :: unesc (t.flatMap escapeSQ) = '\r' :: t
            rw [ih]
          · by_cases h5 : c = '\t'
            · subst h5
              show '\t' :: unesc (t.flatMap escapeSQ) = '\t' :: t
              rw [ih]
            · rw [show (c :: t).flatMap escapeSQ = escapeSQ c ++ t.flatMap escapeSQ from rfl]
              rw [show escapeSQ c = [c] from by simp [escapeSQ, h1, h2, h3, h4, h5]]
              rw [List.singleton_append, unesc_cons_ne _ h1, ih]

/-- `unesc` decodes `escapeDQ`-escaped strings. -/
theorem unesc_escapeDQ (s : List Char) : unesc (s.flatMap escapeDQ) = s := by
  induction s with
  | nil => rfl
  | cons c t ih =>
    by_cases h1 : c = '\\'
    · subst h1
      show '\\' :: unesc (t.flatMap escapeDQ) = '\\' :: t
      rw [ih]
    · by_cases h2 : c = '"'
      · subst h2
        show '"' :: unesc (t.flatMap escapeDQ) = '"' :: t
        rw [ih]
      · by_cases h3 : c = '\n'
        · subst h3
          show '\n' :: unesc (t.flatMap escapeDQ) = '\n' :: t
          rw [ih]
        · by_cases h4 : c = '\r'
          · subst h4
            show '\r' :: unesc (t.flatMap escapeDQ) = '\r' :: t
            rw [ih]
          · by_cases h5 : c = '\t'
            · subst h5
              show '\t' :: unesc (t.flatMap escapeDQ) = '\t' :: t
              rw [ih]
            · rw [show (c :: t).flatMap escapeDQ = escapeDQ c ++ t.flatMap escapeDQ from rfl]
              rw [show escapeDQ c = [c] from by simp [escapeDQ, h1, h2, h3, h4, h5]]
              rw [List.singleton_append, unesc_cons_ne _ h1, ih]

/-- Python string `repr` is injective. -/
theorem pyReprStr_inj {s1 s2 : List Char} (h : pyReprStr s1 = pyReprStr s2) : s1 = s2 := by
  unfold pyReprStr at h
  split_ifs at h
  · rw [List.cons.injEq] at h
    have h2 := List.append_cancel_right h.2
    have := congrArg unesc h2
    rwa [unesc_escapeDQ, unesc_escapeDQ] at this
  · rw [List.cons.injEq] at h
    exact absurd h.1 (by decide)
  · rw [List.cons.injEq] at h
    exact absurd h.1 (by decide)
  · rw [List.cons.injEq] at h
    have h2 := List.append_cancel_right h.2
    have := congrArg unesc h2
    rwa [unesc_escapeSQ, unesc_escapeSQ] at this

/-- `Nat.digitChar` is injective below 10. -/
theorem digitChar_inj_lt {a b : ℕ} (ha : a < 10) (hb : b < 10)
    (h : Nat.digitChar a = Nat.digitChar b) : a = b := by
  interval_cases a <;> interval_cases b <;> revert h <;> decide

/-- Mapping `Nat.digitChar` over digit lists is injective. -/
theorem map_digitChar_inj : ∀ {l1 l2 : List ℕ}, (∀ d ∈ l1, d < 10) → (∀ d ∈ l2, d < 10) →
    l1.map Nat.digitChar = l2.map Nat.digitChar → l1 = l2
  | [], [], _, _, _ => rfl
  | [], _ :: _, _, _, h => by simp at h
  | _ :: _, [], _, _, h => by simp at h
  | a :: t1, b :: t2, hb1, hb2, h => by
    rw [List.map_cons, List.map_cons, List.cons.injEq] at h
    have ha := digitChar_inj_lt (hb1 a (by simp)) (hb2 b (by simp)) h.1
    have ht := map_digitChar_inj (fun d hd => hb1 d (by simp [hd]))
      (fun d hd => hb2 d (by simp [hd])) h.2
    rw [ha, ht]

/-- Python `str` of a natural number is injective. -/
theorem natReprPy_inj {m n : ℕ} (h : natReprPy m = natReprPy n) : m = n := by
  unfold natReprPy at h
  split_ifs at h with hm hn hn
  · rw [hm, hn]
  · exfalso
    rcases hd : Nat.digits 10 n with _ | ⟨d, rest⟩
    · rw [Nat.digits_eq_nil_iff_eq_zero] at hd; exact hn hd
    · rw [hd] at h
      have hlen := congrArg List.length h
      simp at hlen
      have hrest : rest = [] := by first | exact hlen | exact hlen.symm
      rw [hrest] at h hd
      simp at h
      have hd10 : d < 10 := Nat.digits_lt_base (by norm_num) (hd ▸ List.mem_singleton_self d)
      have hd0 : d = 0 := digitChar_inj_lt hd10 (by norm_num) (by
        rw [← h]; rfl)
      have := Nat.ofDigits_digits 10 n
      rw [hd, hd0] at this
      simp [Nat.ofDigits] at this
      exact hn this.symm
  · exfalso
    rcases hd : Nat.digits 10 m with _ | ⟨d, rest⟩
    · rw [Nat.digits_eq_nil_iff_eq_zero] at hd; exact hm hd
    · rw [hd] at h
      have hlen := congrArg List.length h
      simp at hlen
      have hrest : rest = [] := by first | exact hlen | exact hlen.symm
      rw [hrest] at h hd
      simp at h
      have hd10 : d < 10 := Nat.digits_lt_base (by norm_num) (hd ▸ List.mem_singleton_self d)
      have hd0 : d = 0 := digitChar_inj_lt hd10 (by norm_num) (by rw [h]; rfl)
      have := Nat.ofDigits_digits 10 m
      rw [hd, hd0] at this
      simp [Nat.ofDigits] at this
      exact hm this.symm
  · have hdig : (Nat.digits 10 m).reverse = (Nat.digits 10 n).reverse :=
      map_digitChar_inj
        (fun d hd => Nat.digits_lt_base (by norm_num) (List.mem_reverse.mp hd))
        (fun d hd => Nat.digits_lt_base (by norm_num) (List.mem_reverse.mp hd)) h
    have := List.reverse_injective hdig
    calc m = Nat.ofDigits 10 (Nat.digits 10 m) := (Nat.ofDigits_digits 10 m).symm
      _ = Nat.ofDigits 10 (Nat.digits 10 n) := by rw [this]
      _ = n := Nat.ofDigits_digits 10 n

/-- `natReprPy` never starts with a minus sign. -/
theorem natReprPy_head_ne_minus (n : ℕ) (l : List Char) : natReprPy n ≠ '-' :: l := by
  unfold natReprPy
  split_ifs
  · intro h; rw [List.cons.injEq] at h; exact absurd h.1 (by decide)
  · intro h
    rcases hd : (Nat.digits 10 n).reverse with _ | ⟨d, rest⟩
    · rw [hd] at h; simp at h
    · rw [hd] at h
      rw [List.map_cons, List.cons.injEq] at h
      have hd10 : d < 10 := Nat.digits_lt_base (by norm_num)
        (List.mem_reverse.mp (hd ▸ List.mem_cons_self d rest))
      revert h
      intro h
      exact absurd h.1 (by interval_cases d <;> decide)

/-- Python `str` of an int is injective. -/
theorem intReprPy_inj {m n : ℤ} (h : intReprPy m = intReprPy n) : m = n := by
  unfold intReprPy at h
  split_ifs at h with hm hn hn
  · rw [List.cons.injEq] at h
    have := natReprPy_inj h.2
    omega
  · exact absurd h.symm (natReprPy_head_ne_minus _ _)
  · exact absurd h (natReprPy_head_ne_minus _ _)
  · have := natReprPy_inj h
    omega

/-- Claim C8: for the call shapes this program uses (one positional `str`
argument for `get_coords`/`get_hotspots`, one positional `int` argument for
`get_buyers`), the cache key `str(args) + str(kwargs)` is injective: equal
arguments give the same key (hence the same cache entry of that function's
private cache dict), and different arguments never collide. -/
theorem c8_cache_key_injective :
    (∀ s1 s2 : List Char, pyKeyOfStr s1 = pyKeyOfStr s2 ↔ s1 = s2)
    ∧ (∀ n1 n2 : ℤ, pyKeyOfInt n1 = pyKeyOfInt n2 ↔ n1 = n2) := by
  constructor
  · intro s1 s2
    constructor
    · intro h
      unfold pyKeyOfStr at h
      simp only [List.cons_append, List.append_assoc, List.cons.injEq, true_and] at h
      exact pyReprStr_inj (List.append_cancel_right h)
    · rintro rfl; rfl
  · intro n1 n2
    constructor
    · intro h
      unfold pyKeyOfInt at h
      simp only [List.cons_append, List.append_assoc, List.cons.injEq, true_and] at h
      exact intReprPy_inj (List.append_cancel_right h)
    · rintro rfl; rfl
